import Mathlib

/-!
Verification of the multi-agent-framework coordination core
(domain matcher, message bus, PR decision engine, coordinator run loop)
against its natural-language specification.

The TypeScript sources are shallowly embedded as executable Lean
definitions: classes become structures with explicit state passing,
`async` methods that can reject become `Except String`-valued functions,
and the JavaScript `Map` iteration order is modelled by association
lists in insertion order.
-/

/-! ## Domain matcher: `BaseAgent.matchPath` and its glob-to-regex translation

The source builds a JS regular expression from the glob pattern by four
global string replacements and then tests the path against the anchored
regex.  We embed the replacement pass verbatim (left-to-right,
non-overlapping, replacements are not rescanned, exactly like
`String.prototype.replace` with a global pattern), then parse the
resulting regex text into a small AST covering the constructs JS
regexes give to these translated patterns, and run an anchored
backtracking matcher.  A pattern whose translation is not covered by
the AST (e.g. an unbalanced group, on which `new RegExp` throws a
`SyntaxError`) parses to `none`, and `matchPath` propagates that as
`none`. -/

/-- Fuelled worker for `replaceSub`; every step consumes at least one
character of `s`, so fuel `s.length` always suffices. -/
def replaceSubGo (tgt rep : List Char) : Nat → List Char → List Char
  | 0, s => s
  | _ + 1, [] => []
  | fuel + 1, c :: cs =>
    if tgt.isPrefixOf (c :: cs) ∧ 0 < tgt.length then
      rep ++ replaceSubGo tgt rep fuel ((c :: cs).drop tgt.length)
    else
      c :: replaceSubGo tgt rep fuel cs

/-- One left-to-right, non-overlapping global replacement of the literal
substring `tgt` by `rep` in `s`, as performed by JS
`String.prototype.replace(/tgt/g, rep)`; the replacement text is never
rescanned. -/
def replaceSub (tgt rep s : List Char) : List Char :=
  replaceSubGo tgt rep s.length s

/-- The glob-to-regex translation from `BaseAgent.matchPath`:
`**` is first hidden behind the placeholder `§§`, then `*` becomes
`[^/]*`, the placeholder becomes `.*`, and `?` becomes `.`. -/
def regexTranslate (pattern : String) : List Char :=
  replaceSub ['?'] ['.']
    (replaceSub ['§', '§'] ['.', '*']
      (replaceSub ['*'] ['[', '^', '/', ']', '*']
        (replaceSub ['*', '*'] ['§', '§'] pattern.toList)))

/-- An item of a regex character class: a single character or a range. -/
inductive ClsItem where
  | single (c : Char)
  | range (lo hi : Char)
deriving DecidableEq, Repr

/-- A regex atom: a literal character, the any-character dot, or a
character class (possibly negated). -/
inductive RAtom where
  | lit (c : Char)
  | dot
  | cls (neg : Bool) (items : List ClsItem)
deriving DecidableEq, Repr

/-- A regex piece: an atom with an optional postfix quantifier. -/
inductive RPiece where
  | once (a : RAtom)
  | star (a : RAtom)
  | plus (a : RAtom)
  | opt (a : RAtom)
deriving DecidableEq, Repr

/-- Parse the body of a character class after the opening `[` (and after
a possible leading `^` handled by the caller), returning the items and
the text following the closing `]`.  Fails if the class is unclosed. -/
def parseCls : (s : List Char) → Option (List ClsItem × List Char)
  | [] => none
  | ']' :: rest => some ([], rest)
  | c :: '-' :: d :: rest =>
    if d = ']' then
      -- in JS, a trailing dash as in `[a-]` is a literal member
      some ([.single c, .single '-'], rest)
    else
      match parseCls rest with
      | none => none
      | some (items, rest2) => some (.range c d :: items, rest2)
  | c :: rest =>
    match parseCls rest with
    | none => none
    | some (items, rest2) => some (.single c :: items, rest2)

/-- Attach a postfix quantifier (`*`, `+`, `?`) to a parsed atom if one
follows it. -/
def quantPeek (a : RAtom) : List Char → RPiece × List Char
  | '*' :: rest => (.star a, rest)
  | '+' :: rest => (.plus a, rest)
  | '?' :: rest => (.opt a, rest)
  | rest => (.once a, rest)

/-- Fuelled parser for the translated regex text.  Characters that
would give the regex a structure outside the AST (groups, alternation,
anchors, escapes, or a quantifier with nothing to repeat — the cases on
which JS `new RegExp` either throws or builds a construct the
translated globs never produce) make the parse fail.  All other
characters are literals, as in JS (including `{`, `}`, `-`, `§`). -/
def parseRegexGo : Nat → List Char → Option (List RPiece)
  | 0, _ => none
  | _ + 1, [] => some []
  | fuel + 1, c :: rest =>
    if c = '*' ∨ c = '+' ∨ c = '?' ∨ c = '(' ∨ c = ')' ∨ c = '|' ∨
        c = '^' ∨ c = '$' ∨ c = '\\' then
      none
    else if c = '[' then
      match rest with
      | '^' :: rest1 =>
        match parseCls rest1 with
        | none => none
        | some (items, rest2) =>
          let (p, rest3) := quantPeek (.cls true items) rest2
          match parseRegexGo fuel rest3 with
          | none => none
          | some ps => some (p :: ps)
      | _ =>
        match parseCls rest with
        | none => none
        | some (items, rest2) =>
          let (p, rest3) := quantPeek (.cls false items) rest2
          match parseRegexGo fuel rest3 with
          | none => none
          | some ps => some (p :: ps)
    else
      let a : RAtom := if c = '.' then .dot else .lit c
      let (p, rest3) := quantPeek a rest
      match parseRegexGo fuel rest3 with
      | none => none
      | some ps => some (p :: ps)

/-- Parse the translated regex text into a sequence of pieces.  The
fuel `s.length + 1` is enough for any input, since every piece consumes
at least one character. -/
def parseRegex (s : List Char) : Option (List RPiece) :=
  parseRegexGo (s.length + 1) s

/-- Does a regex atom match one character?  `.` matches every character
except a line terminator, exactly as in a JS regex without the `s`
flag. -/
def matchAtom : RAtom → Char → Bool
  | .lit c, x => c == x
  | .dot, x =>
    !(x == '\n' || x == '\r' || x == '\u2028' || x == '\u2029')
  | .cls neg items, x =>
    let hit := items.any fun it =>
      match it with
      | .single c => c == x
      | .range lo hi => decide (lo.toNat ≤ x.toNat ∧ x.toNat ≤ hi.toNat)
    if neg then !hit else hit

/-- Fuelled worker for `reMatch`; every recursive call strictly
decreases `ps.length + s.length`, so fuel `ps.length + s.length + 1`
always suffices. -/
def reMatchGo : Nat → List RPiece → List Char → Bool
  | 0, _, _ => false
  | _ + 1, [], [] => true
  | _ + 1, [], _ :: _ => false
  | _ + 1, .once _ :: _, [] => false
  | fuel + 1, .once a :: ps, c :: cs => matchAtom a c && reMatchGo fuel ps cs
  | fuel + 1, .star a :: ps, s =>
    reMatchGo fuel ps s ||
      (match s with
       | [] => false
       | c :: cs => matchAtom a c && reMatchGo fuel (.star a :: ps) cs)
  | _ + 1, .plus _ :: _, [] => false
  | fuel + 1, .plus a :: ps, c :: cs =>
    matchAtom a c && reMatchGo fuel (.star a :: ps) cs
  | fuel + 1, .opt a :: ps, s =>
    reMatchGo fuel ps s ||
      (match s with
       | [] => false
       | c :: cs => matchAtom a c && reMatchGo fuel ps cs)

/-- Anchored backtracking match of a piece sequence against a string,
the boolean semantics of `new RegExp` built from `^...$` followed by
`.test(path)`. -/
def reMatch (ps : List RPiece) (s : List Char) : Bool :=
  reMatchGo (ps.length + s.length + 1) ps s

/-- `BaseAgent.matchPath(path, pattern)`: translate the glob to a regex
and test the path against it, anchored.  `none` models the
`SyntaxError` thrown by `new RegExp` on a translation outside the
embedded regex fragment. -/
def matchPath (path pattern : String) : Option Bool :=
  match parseRegex (regexTranslate pattern) with
  | none => none
  | some ps => some (reMatch ps path.toList)

/-! ## Agent configuration and the domain predicates `canWrite` / `canRead` -/

/-- `AgentPersona` from `types.ts`. -/
structure AgentPersona where
  name : String
  role : String
  traits : List String
  voice : String
deriving DecidableEq, Repr

/-- `AgentDomain` from `types.ts`: write patterns, and optional read
patterns whose absence means unrestricted read. -/
structure AgentDomain where
  writePaths : List String
  readPaths : Option (List String) := none
deriving DecidableEq, Repr

/-- `AgentConfig` from `types.ts` (the `metadata` record is opaque to
the core and not used by any operation we verify, so it is left out of
the embedding). -/
structure AgentConfig where
  id : String
  persona : AgentPersona
  domain : AgentDomain
  schedule : Option String := none
  model : Option String := none
  promptTemplate : Option String := none
deriving DecidableEq, Repr

/-- JS `Array.prototype.some` with a predicate that can throw: the
elements are tested in order, the first `true` short-circuits, and a
thrown exception (`none`) propagates immediately. -/
def someThrow (f : α → Option Bool) : List α → Option Bool
  | [] => some false
  | x :: xs =>
    match f x with
    | none => none
    | some true => some true
    | some false => someThrow f xs

/-- `BaseAgent.canWrite`: the path must match at least one of the
configured write patterns. -/
def canWrite (config : AgentConfig) (path : String) : Option Bool :=
  someThrow (fun pat => matchPath path pat) config.domain.writePaths

/-- `BaseAgent.canRead`: with absent or empty `readPaths` every path is
readable, otherwise the path must match at least one read pattern. -/
def canRead (config : AgentConfig) (path : String) : Option Bool :=
  match config.domain.readPaths with
  | none => some true
  | some readPaths =>
    if readPaths.length = 0 then some true
    else someThrow (fun pat => matchPath path pat) readPaths

/-- A concrete agent configuration for evaluating the domain predicates. -/
def witnessConfig : AgentConfig :=
  { id := "builder"
    persona := { name := "Builder", role := "build", traits := [], voice := "plain" }
    domain := { writePaths := ["src/**", "packages/*.ts"],
                readPaths := some ["**/*.md"] } }

/-! ## PR decision engine: `PRManager` from `github-client.ts`

Timestamps (`new Date()` values) are modelled as UTC calendar fields —
the instant a JS `Date` denotes — supplied explicitly wherever the
source reads the clock.  The source-control gateway (`GitHubClient`) is
an external collaborator per §6 of the spec; the `src/` implementation
is an inert stub, so the gateway is modelled as a record of pure
functions giving each query's reply, and the decision logic is embedded
from the `PRManager` source against that record. -/

/-- A UTC instant as the calendar fields a JS `Date` renders. -/
structure DateTime where
  year : Nat
  month : Nat
  day : Nat
  hour : Nat
  minute : Nat
  second : Nat
  milli : Nat
deriving DecidableEq, Repr

/-- `CIStatus` from `types.ts`. -/
inductive CIStatus where
  | pending
  | success
  | failure
  | error
  | cancelled
deriving DecidableEq, Repr

/-- The string a `CIStatus` value interpolates as. -/
def ciStatusStr : CIStatus → String
  | .pending => "pending"
  | .success => "success"
  | .failure => "failure"
  | .error => "error"
  | .cancelled => "cancelled"

/-- `PRInfo.status` from `types.ts` (`open` is a Lean keyword, so the
first constructor is spelled `opened`). -/
inductive PRStatus where
  | opened
  | closed
  | merged
deriving DecidableEq, Repr

/-- `PRDecision.action` from `types.ts`. -/
inductive PRAction where
  | merge
  | close
  | wait
  | review
deriving DecidableEq, Repr

/-- `PRInfo` from `types.ts`. -/
structure PRInfo where
  number : Nat
  title : String
  status : PRStatus
  ciStatus : CIStatus
  branch : String
  agentId : Option String := none
  createdAt : DateTime
  updatedAt : DateTime
  url : String
  autoMergeEnabled : Bool
deriving DecidableEq, Repr

/-- `PRDecision` from `types.ts`. -/
structure PRDecision where
  prNumber : Nat
  action : PRAction
  reason : String
  timestamp : DateTime
  waitConditions : Option (List String) := none
deriving DecidableEq, Repr

/-- The `PRManager.decisions` map: one decision per PR number. -/
abbrev DecisionStore : Type := Nat → Option PRDecision

/-- The empty decision store of a fresh `PRManager`. -/
def emptyStore : DecisionStore := fun _ => none

/-- `PRManager.recordDecision`: newest decision overwrites, keyed by PR
number. -/
def recordDecision (store : DecisionStore) (decision : PRDecision) :
    DecisionStore :=
  fun n => if n = decision.prNumber then some decision else store n

/-- `PRManager.getDecision`. -/
def getDecision (store : DecisionStore) (prNumber : Nat) :
    Option PRDecision :=
  store prNumber

/-- The external source-control gateway (§6): each query's reply as a
pure function of its arguments. -/
structure Gateway where
  getPR : Nat → Option PRInfo
  getCIStatus : Nat → CIStatus
  listOpenPRs : List PRInfo
  allChecksPassed : Nat → List String → Bool
  mergePRResult : Nat → Bool
  closePRResult : Nat → Bool

/-- `PRManager.processPR`: look the PR up through the gateway (a
missing PR rejects with a "not found" error), derive a decision from
the CI status, record it, and return it. -/
def processPR (gw : Gateway) (now : DateTime) (prNumber : Nat)
    (store : DecisionStore) : Except String (PRDecision × DecisionStore) :=
  match gw.getPR prNumber with
  | none => .error s!"PR #{prNumber} not found"
  | some _ =>
    let ciStatus := gw.getCIStatus prNumber
    let decision : PRDecision :=
      if ciStatus = CIStatus.success then
        { prNumber := prNumber, action := .merge,
          reason := "All CI checks passed", timestamp := now }
      else if ciStatus = CIStatus.failure ∨ ciStatus = CIStatus.error then
        let cs := ciStatusStr ciStatus
        { prNumber := prNumber, action := .review,
          reason := s!"CI status: {cs}", timestamp := now }
      else
        { prNumber := prNumber, action := .wait,
          reason := "CI checks still pending", timestamp := now,
          waitConditions := some ["CI checks must complete"] }
    .ok (decision, recordDecision store decision)

/-- An external side effect performed through the gateway. -/
inductive ExtCall where
  | mergePR (prNumber : Nat)
  | closePR (prNumber : Nat) (comment : String)
deriving DecidableEq, Repr

/-- `PRManager.executeDecision`: dispatch a decision to the gateway;
`wait` and `review` are no-ops returning `true`.  The second component
logs the external calls performed. -/
def executeDecision (gw : Gateway) (decision : PRDecision) :
    Bool × List ExtCall :=
  match decision.action with
  | .merge => (gw.mergePRResult decision.prNumber,
               [.mergePR decision.prNumber])
  | .close => (gw.closePRResult decision.prNumber,
               [.closePR decision.prNumber decision.reason])
  | .wait => (true, [])
  | .review => (true, [])

/-- The loop body of `PRManager.autoMergeReady` over a list of PRs:
for each PR with auto-merge enabled whose required checks all passed,
synthesize a merge decision, execute it immediately, and include it in
the returned list; other PRs are skipped silently. -/
def autoMergeLoop (gw : Gateway) (now : DateTime)
    (requiredChecks : List String) :
    List PRInfo → List PRDecision × List ExtCall
  | [] => ([], [])
  | pr :: rest =>
    if pr.autoMergeEnabled && gw.allChecksPassed pr.number requiredChecks then
      let decision : PRDecision :=
        { prNumber := pr.number, action := .merge,
          reason := "Auto-merge: all required checks passed",
          timestamp := now }
      let calls := (executeDecision gw decision).2
      let (ds, cs) := autoMergeLoop gw now requiredChecks rest
      (decision :: ds, calls ++ cs)
    else
      autoMergeLoop gw now requiredChecks rest

/-- `PRManager.autoMergeReady`: run the auto-merge loop over the open
PRs listed by the gateway.  (The synthesized decisions are executed and
returned but never recorded in the decision store — the source never
calls `recordDecision` here.) -/
def autoMergeReady (gw : Gateway) (now : DateTime)
    (requiredChecks : List String) : List PRDecision × List ExtCall :=
  autoMergeLoop gw now requiredChecks gw.listOpenPRs

/-- An arbitrary fixed clock instant for concrete counterexamples and
witnesses. -/
def someInstant : DateTime :=
  { year := 2024, month := 5, day := 17, hour := 12, minute := 30,
    second := 45, milli := 123 }

/-- A concrete open PR used by counterexamples and witnesses. -/
def prOne : PRInfo :=
  { number := 1, title := "t", status := .opened, ciStatus := .success,
    branch := "b", createdAt := someInstant, updatedAt := someInstant,
    url := "u", autoMergeEnabled := true }

/-- A concrete gateway whose PR 1 resolves with CI status `success`. -/
def gwSuccess : Gateway :=
  { getPR := fun n => if n = 1 then some prOne else none
    getCIStatus := fun _ => .success
    listOpenPRs := [prOne]
    allChecksPassed := fun _ _ => true
    mergePRResult := fun _ => true
    closePRResult := fun _ => true }


/-! ## Message bus: `MessageBus` and `AgentMessage` from `message-bus.ts`

`AgentMessage.payload` is `Record<string, unknown>` in the source; the
bus is designed to persist messages as JSON, so payload values are
modelled as JSON values and the `JSON.stringify`/`JSON.parse` pair is
modelled at the level of the JSON document tree (`JSON.parse` of
`JSON.stringify` output reproduces the same tree; the `null, 2` pretty
printing only affects whitespace).  A `Date` stringifies through
`toJSON` as its ISO-8601 UTC text, and `parseMessage` rebuilds the
timestamp with `new Date(text)`; both platform conversions are modelled
concretely below (`isoFormat` / `isoParse`). -/

/-- A JSON document tree. -/
inductive Json where
  | null
  | bool (b : Bool)
  | num (n : Int)
  | str (s : String)
  | arr (elems : List Json)
  | obj (fields : List (String × Json))

/-- Structural equality of JSON trees (and simultaneously of lists of
trees and of field lists). -/
def Json.beq : Json → Json → Bool
  | .null, .null => true
  | .bool a, .bool b => a == b
  | .num a, .num b => a == b
  | .str a, .str b => a == b
  | .arr a, .arr b => beqList a b
  | .obj a, .obj b => beqFields a b
  | _, _ => false
where
  beqList : List Json → List Json → Bool
    | [], [] => true
    | x :: xs, y :: ys => Json.beq x y && beqList xs ys
    | _, _ => false
  beqFields : List (String × Json) → List (String × Json) → Bool
    | [], [] => true
    | (k1, v1) :: xs, (k2, v2) :: ys =>
      k1 == k2 && Json.beq v1 v2 && beqFields xs ys
    | _, _ => false

/-- `AgentMessage.type` from `types.ts`. -/
inductive MsgType where
  | signal
  | decision
  | request
  | status
deriving DecidableEq, Repr

/-- The string an `AgentMessage.type` serializes as. -/
def msgTypeStr : MsgType → String
  | .signal => "signal"
  | .decision => "decision"
  | .request => "request"
  | .status => "status"

/-- Inverse of `msgTypeStr` used when parsing. -/
def msgTypeOfStr (s : String) : Option MsgType :=
  if s = "signal" then some .signal
  else if s = "decision" then some .decision
  else if s = "request" then some .request
  else if s = "status" then some .status
  else none

/-- `AgentMessage` from `types.ts`.  The `from`/`to` fields are spelled
`fromId`/`toId` because `from` is a Lean keyword; `from` may also be
the literal sender `"coordinator"` and `to` the literal target
`"broadcast"`. -/
structure AgentMessage where
  id : String
  fromId : String
  toId : String
  type : MsgType
  payload : List (String × Json)
  timestamp : DateTime
  relatedFiles : Option (List String) := none

/-- `MessageBus.createMessage`: stamps the supplied fresh unique id and
current timestamp; does not publish. -/
def createMessage (freshId : String) (now : DateTime)
    (fromId toId : String) (type : MsgType)
    (payload : List (String × Json))
    (relatedFiles : Option (List String) := none) : AgentMessage :=
  { id := freshId, fromId := fromId, toId := toId, type := type,
    payload := payload, timestamp := now, relatedFiles := relatedFiles }

/-- The decimal digit character for `n % 10`. -/
def dchar (n : Nat) : Char := Char.ofNat (48 + n % 10)

/-- The numeric value of a decimal digit character. -/
def dval (c : Char) : Nat := c.toNat - 48

/-- The character is a decimal digit. -/
def isDig (c : Char) : Prop := 48 ≤ c.toNat ∧ c.toNat ≤ 57

instance (c : Char) : Decidable (isDig c) := by
  unfold isDig
  infer_instance

/-- The character list of `Date.prototype.toISOString`:
`YYYY-MM-DDTHH:mm:ss.sssZ` (years 0–9999). -/
def isoChars (dt : DateTime) : List Char :=
  [dchar (dt.year / 1000), dchar (dt.year / 100), dchar (dt.year / 10),
   dchar dt.year, '-', dchar (dt.month / 10), dchar dt.month, '-',
   dchar (dt.day / 10), dchar dt.day, 'T', dchar (dt.hour / 10),
   dchar dt.hour, ':', dchar (dt.minute / 10), dchar dt.minute, ':',
   dchar (dt.second / 10), dchar dt.second, '.', dchar (dt.milli / 100),
   dchar (dt.milli / 10), dchar dt.milli, 'Z']

/-- `Date.prototype.toISOString` (the form `JSON.stringify` emits for a
`Date` via `toJSON`). -/
def isoFormat (dt : DateTime) : String := String.mk (isoChars dt)

/-- `new Date(text)` on the canonical ISO-8601 UTC text: recover the
calendar fields from the fixed-width form. -/
def isoParse (s : String) : Option DateTime :=
  match s.data with
  | [y1, y2, y3, y4, dash1, mo1, mo2, dash2, d1, d2, tSep, h1, h2, c1,
     mi1, mi2, c2, s1, s2, dotSep, x1, x2, x3, zSep] =>
    if dash1 = '-' ∧ dash2 = '-' ∧ tSep = 'T' ∧ c1 = ':' ∧ c2 = ':' ∧
        dotSep = '.' ∧ zSep = 'Z' ∧ isDig y1 ∧ isDig y2 ∧ isDig y3 ∧
        isDig y4 ∧ isDig mo1 ∧ isDig mo2 ∧ isDig d1 ∧ isDig d2 ∧
        isDig h1 ∧ isDig h2 ∧ isDig mi1 ∧ isDig mi2 ∧ isDig s1 ∧
        isDig s2 ∧ isDig x1 ∧ isDig x2 ∧ isDig x3 then
      some { year := 1000 * dval y1 + 100 * dval y2 + 10 * dval y3 + dval y4,
             month := 10 * dval mo1 + dval mo2,
             day := 10 * dval d1 + dval d2,
             hour := 10 * dval h1 + dval h2,
             minute := 10 * dval mi1 + dval mi2,
             second := 10 * dval s1 + dval s2,
             milli := 100 * dval x1 + 10 * dval x2 + dval x3 }
    else none
  | _ => none

/-- The calendar fields fit the fixed-width ISO form (always true of a
real clock reading). -/
def isoRepresentable (dt : DateTime) : Prop :=
  dt.year < 10000 ∧ dt.month < 100 ∧ dt.day < 100 ∧ dt.hour < 100 ∧
    dt.minute < 100 ∧ dt.second < 100 ∧ dt.milli < 1000

instance (dt : DateTime) : Decidable (isoRepresentable dt) := by
  unfold isoRepresentable
  infer_instance

/-- `MessageBus.serializeMessage` = `JSON.stringify(message, null, 2)`,
modelled as the JSON tree that text denotes.  Keys appear in the
insertion order of the object literal in `createMessage`; an
`undefined` `relatedFiles` is omitted entirely, exactly as
`JSON.stringify` drops `undefined` properties. -/
def serializeMessage (m : AgentMessage) : Json :=
  Json.obj
    ([("id", .str m.id), ("from", .str m.fromId), ("to", .str m.toId),
      ("type", .str (msgTypeStr m.type)), ("payload", .obj m.payload),
      ("timestamp", .str (isoFormat m.timestamp))] ++
      (match m.relatedFiles with
       | none => []
       | some fs => [("relatedFiles", .arr (fs.map .str))]))

/-- Property lookup on a parsed JSON object. -/
def jLookup (fields : List (String × Json)) (key : String) : Option Json :=
  match fields with
  | [] => none
  | (k, v) :: rest => if k = key then some v else jLookup rest key

/-- Extract the strings of a JSON array of strings. -/
def jStrings : List Json → Option (List String)
  | [] => some []
  | .str s :: rest =>
    match jStrings rest with
    | none => none
    | some ss => some (s :: ss)
  | _ => none

/-- `MessageBus.parseMessage` = `JSON.parse` followed by rebuilding the
timestamp with `new Date(...)`; the typed reading of the untyped spread
`{...data, timestamp: new Date(data.timestamp)}`. -/
def parseMessage (j : Json) : Option AgentMessage :=
  match j with
  | .obj fields =>
    match jLookup fields "id", jLookup fields "from", jLookup fields "to",
        jLookup fields "type", jLookup fields "payload",
        jLookup fields "timestamp" with
    | some (.str id), some (.str fromId), some (.str toId),
        some (.str tyStr), some (.obj payload), some (.str tsStr) =>
      match msgTypeOfStr tyStr, isoParse tsStr with
      | some type, some ts =>
        match jLookup fields "relatedFiles" with
        | none =>
          some { id := id, fromId := fromId, toId := toId, type := type,
                 payload := payload, timestamp := ts, relatedFiles := none }
        | some (.arr xs) =>
          match jStrings xs with
          | some fs =>
            some { id := id, fromId := fromId, toId := toId, type := type,
                   payload := payload, timestamp := ts,
                   relatedFiles := some fs }
          | none => none
        | some _ => none
      | _, _ => none
    | _, _, _, _, _, _ => none
  | _ => none


/-- A message handler registered on the bus
(`MessageHandler = (message) => Promise<void>`; a rejection carries an
error string). -/
abbrev MessageHandler : Type := AgentMessage → Except String Unit

/-- The bus's `messageHandlers` map: agent id to the handlers
registered for it, entries in insertion order (JS `Map` iteration
order), each entry's handlers in registration order. -/
abbrev Handlers : Type := List (String × List MessageHandler)

/-- `Map.prototype.get` on the handler registry. -/
def lookupHandlers (handlers : Handlers) (agentId : String) :
    Option (List MessageHandler) :=
  (handlers.find? fun e => e.1 == agentId).map fun e => e.2

/-- The target-handler resolution of `MessageBus.deliverMessage`: for a
broadcast, walk the registry in insertion order and collect the
handlers of every agent id other than the sender; otherwise take the
handlers registered for the target id, defaulting to none. -/
def deliverTargets (handlers : Handlers) (msg : AgentMessage) :
    List MessageHandler :=
  if msg.toId = "broadcast" then
    handlers.foldl
      (fun acc e => if e.1 ≠ msg.fromId then acc ++ e.2 else acc) []
  else
    match lookupHandlers handlers msg.toId with
    | none => []
    | some hs => hs

/-- `Promise.all` over the resolved handlers: every handler is invoked
with the message; the call fails with the first rejection. -/
def runHandlers (msg : AgentMessage) : List MessageHandler →
    Except String Unit
  | [] => .ok ()
  | h :: rest =>
    match h msg with
    | .error e => .error e
    | .ok _ => runHandlers msg rest

/-- `MessageBus.deliverMessage`. -/
def deliverMessage (handlers : Handlers) (msg : AgentMessage) :
    Except String Unit :=
  runHandlers msg (deliverTargets handlers msg)

/-- `MessageBus.publish`: delivery only; the file-system write is an
external collaborator's job and never happens in the core. -/
def publish (handlers : Handlers) (msg : AgentMessage) :
    Except String Unit :=
  deliverMessage handlers msg

/-! ## Coordinator: `coordinator.ts`

`Coordinator.run` is embedded with its state passed explicitly: the
handler registry and the gateway are fixed inputs of one run; agent
execution (whose body is supplied by the integrator, not by the core)
is modelled by the outcome the agent's `execute` produces during this
run; the clock is a fixed instant.  The embedding returns, besides the
`CoordinatorRunResult`, the final coordinator state, the final decision
store, the broadcast messages published by the run loop, and the
external gateway calls performed — the observables the spec talks
about. -/

/-- The status values of `AgentRunResult.status` and
`CoordinatorRunResult.status` (`partial` is a reserved keyword in Lean,
so that constructor is spelled `partialRes`). -/
inductive RunStatus where
  | success
  | failure
  | partialRes
deriving DecidableEq, Repr

/-- The string a `RunStatus` serializes as. -/
def runStatusStr : RunStatus → String
  | .success => "success"
  | .failure => "failure"
  | .partialRes => "partial"

/-- `AgentRunResult` from `types.ts` (the optional `error` text is
spelled `errMsg`). -/
structure AgentRunResult where
  agentId : String
  status : RunStatus
  filesChanged : List String
  errMsg : Option String := none
  timestamp : DateTime
  durationMs : Nat
  output : Option String := none
deriving DecidableEq, Repr

/-- A registered agent as the coordinator's run loop sees it: its id
and the outcome of its `execute` during this run (`.error` models a
thrown exception, `.ok` a normally returned result). -/
structure MAgent where
  id : String
  execute : Except String AgentRunResult

/-- `CoordinatorState` from `coordinator.ts`. -/
inductive CoordinatorState where
  | idle
  | running
  | processing
  | error
  | stopped
deriving DecidableEq, Repr

/-- `CoordinatorRunOptions`. -/
structure RunOptions where
  agents : Option (List String) := none
  skipPRProcessing : Bool := false
  dryRun : Bool := false

/-- The auto-merge section of `SystemConfig`. -/
structure AutoMergeCfg where
  enabled : Bool
  requiredChecks : List String
  mergeDelay : Nat
  blockingLabels : List String
deriving DecidableEq, Repr

/-- `SystemConfig` from `types.ts` (the agent list is held by the
registry). -/
structure SystemCfg where
  owner : String
  repo : String
  defaultBranch : String
  messagingPath : String
  decisionsPath : String
  autoMerge : AutoMergeCfg
deriving DecidableEq, Repr

/-- `CoordinatorRunResult`. -/
structure CoordRunResult where
  status : RunStatus
  agentResults : List AgentRunResult
  prDecisions : List PRDecision
  timestamp : DateTime
  durationMs : Nat
  errors : List String

/-- The `task_completed` broadcast the coordinator publishes after an
agent's `execute` returns (`broadcast('coordinator', 'signal', ...)`;
the bus stamps a fresh id, irrelevant to delivery and modelled as
empty). -/
def taskCompletedMessage (now : DateTime) (agentId : String)
    (r : AgentRunResult) : AgentMessage :=
  createMessage "" now "coordinator" "broadcast" .signal
    [("signal", .str "task_completed"), ("agentId", .str agentId),
     ("status", .str (runStatusStr r.status)),
     ("filesChanged", .arr (r.filesChanged.map .str))] none

/-- What one iteration of the agent loop of `Coordinator.run`
contributes: appended results, appended error strings, published
broadcasts.  The `try` block appends the result *before* broadcasting,
so a broadcast failure is caught by the same per-agent `catch` (which
records `"Agent <id>: <message>"`) after the result is already in. -/
def agentStep (handlers : Handlers) (now : DateTime) (a : MAgent) :
    List AgentRunResult × List String × List AgentMessage :=
  match a.execute with
  | .error e => ([], [s!"Agent {a.id}: {e}"], [])
  | .ok r =>
    let msg := taskCompletedMessage now a.id r
    match publish handlers msg with
    | .ok _ => ([r], [], [msg])
    | .error e => ([r], [s!"Agent {a.id}: {e}"], [msg])

/-- The agent loop of `Coordinator.run` over the resolved agent list,
in order; a per-agent failure never aborts the loop. -/
def runAgents (handlers : Handlers) (now : DateTime) :
    List MAgent → List AgentRunResult × List String × List AgentMessage
  | [] => ([], [], [])
  | a :: rest =>
    let s := agentStep handlers now a
    let t := runAgents handlers now rest
    (s.1 ++ t.1, s.2.1 ++ t.2.1, s.2.2 ++ t.2.2)

/-- The outcome of the PR-processing phase: the decisions list the
source accumulates, the decision store after the recordings, the
external calls performed, and (`thrown`) an exception escaping the
phase, if any. -/
structure PRPhase where
  decisions : List PRDecision
  store : DecisionStore
  calls : List ExtCall
  thrown : Option String

/-- The per-PR loop of `Coordinator.processPRs`: decide and record each
open PR in order; in non-dry-run mode immediately execute a `merge`
decision.  A thrown "not found" error aborts the loop (the store keeps
the recordings already made). -/
def prLoop (gw : Gateway) (now : DateTime) (dryRun : Bool) :
    List PRInfo → DecisionStore → PRPhase
  | [], store => ⟨[], store, [], none⟩
  | pr :: rest, store =>
    match processPR gw now pr.number store with
    | .error e => ⟨[], store, [], some e⟩
    | .ok (d, store2) =>
      let calls :=
        if ¬dryRun ∧ d.action = PRAction.merge then (executeDecision gw d).2
        else []
      let ph := prLoop gw now dryRun rest store2
      ⟨d :: ph.decisions, ph.store, calls ++ ph.calls, ph.thrown⟩

/-- `Coordinator.processPRs`: run the per-PR loop over the gateway's
open PRs; then, in non-dry-run mode with global auto-merge enabled,
additionally run `autoMergeReady` and append its decisions. -/
def processPRs (gw : Gateway) (cfg : SystemCfg) (now : DateTime)
    (dryRun : Bool) (store : DecisionStore) : PRPhase :=
  let ph := prLoop gw now dryRun gw.listOpenPRs store
  match ph.thrown with
  | some e => ⟨ph.decisions, ph.store, ph.calls, some e⟩
  | none =>
    if ¬dryRun ∧ cfg.autoMerge.enabled then
      let (ads, acs) := autoMergeReady gw now cfg.autoMerge.requiredChecks
      ⟨ph.decisions ++ ads, ph.store, ph.calls ++ acs, none⟩
    else
      ⟨ph.decisions, ph.store, ph.calls, none⟩

/-- What a whole `Coordinator.run` call produces and leaves behind. -/
structure RunOut where
  result : CoordRunResult
  state : CoordinatorState
  store : DecisionStore
  broadcasts : List AgentMessage
  calls : List ExtCall

/-- Agent-set resolution of `Coordinator.run`: an explicit id list is
looked up in the registry and unknown ids are silently dropped; the
default is every registered agent. -/
def resolveAgents (registry : List MAgent) (opts : RunOptions) :
    List MAgent :=
  match opts.agents with
  | some ids => ids.filterMap fun i => registry.find? fun a => a.id == i
  | none => registry

/-- `Coordinator.run`: run the resolved agents, then (unless skipped)
process PRs, compute the overall status, and transition the state.
The per-agent `catch` keeps the loop going; only an exception escaping
the PR phase reaches the outer `catch`, which appends
`"Coordinator: <message>"`, forces status `failure`, and sets state
`error`.  `result.timestamp` is the run's start instant; wall-clock
duration is abstracted as 0. -/
def runCoordinator (registry : List MAgent) (handlers : Handlers)
    (gw : Gateway) (cfg : SystemCfg) (opts : RunOptions)
    (store : DecisionStore) (now : DateTime) : RunOut :=
  let agentsToRun := resolveAgents registry opts
  let loopOut := runAgents handlers now agentsToRun
  let results := loopOut.1
  let errors := loopOut.2.1
  let msgs := loopOut.2.2
  if opts.skipPRProcessing then
    let status : RunStatus :=
      if errors ≠ [] then
        (if results ≠ [] then .partialRes else .failure)
      else .success
    { result := { status := status, agentResults := results,
                  prDecisions := [], timestamp := now, durationMs := 0,
                  errors := errors },
      state := .idle, store := store, broadcasts := msgs, calls := [] }
  else
    let ph := processPRs gw cfg now opts.dryRun store
    match ph.thrown with
    | none =>
      let status : RunStatus :=
        if errors ≠ [] then
          (if results ≠ [] then .partialRes else .failure)
        else .success
      { result := { status := status, agentResults := results,
                    prDecisions := ph.decisions, timestamp := now,
                    durationMs := 0, errors := errors },
        state := .idle, store := ph.store, broadcasts := msgs,
        calls := ph.calls }
    | some e =>
      { result := { status := .failure, agentResults := results,
                    prDecisions := [], timestamp := now, durationMs := 0,
                    errors := errors ++ [s!"Coordinator: {e}"] },
        state := .error, store := ph.store, broadcasts := msgs,
        calls := ph.calls }


/-- A handler that always succeeds (subscribed for agent id `a`). -/
def hA : MessageHandler := fun _ => .ok ()

/-- First handler registered for agent id `b`. -/
def hB1 : MessageHandler := fun _ => .ok ()

/-- Second handler registered for agent id `b`. -/
def hB2 : MessageHandler := fun _ => .ok ()

/-- A handler registered for agent id `c`. -/
def hC : MessageHandler := fun _ => .ok ()

/-- A concrete bus registry with three subscribed agent ids. -/
def busThree : Handlers := [("a", [hA]), ("b", [hB1, hB2]), ("c", [hC])]

/-- A broadcast sent by the subscribed agent `a`. -/
def msgFromA : AgentMessage :=
  createMessage "m1" someInstant "a" "broadcast" .signal [] none

/-- A direct message from `a` to `b`. -/
def msgToB : AgentMessage :=
  createMessage "m2" someInstant "a" "b" .status [] none

/-- A direct message to an id with no registered handlers. -/
def msgToZ : AgentMessage :=
  createMessage "m3" someInstant "a" "z" .status [] none

/-- A successful agent result carrying the given agent id. -/
def resOf (agentId : String) : AgentRunResult :=
  { agentId := agentId, status := .success, filesChanged := [],
    timestamp := someInstant, durationMs := 100 }

/-- An agent result with status `failure` returned normally (no
exception thrown). -/
def resFailOf (agentId : String) : AgentRunResult :=
  { agentId := agentId, status := .failure, filesChanged := [],
    errMsg := some "task failed", timestamp := someInstant,
    durationMs := 100 }

/-- An agent result with status `partial` returned normally. -/
def resPartOf (agentId : String) : AgentRunResult :=
  { agentId := agentId, status := .partialRes, filesChanged := [],
    timestamp := someInstant, durationMs := 100 }

/-- First concrete agent: executes successfully. -/
def agFirst : MAgent := { id := "a1", execute := .ok (resOf "a1") }

/-- Second concrete agent: executes successfully. -/
def agSecond : MAgent := { id := "a2", execute := .ok (resOf "a2") }

/-- An agent whose `execute` returns a `failure`-status result without
throwing. -/
def agSoftFail : MAgent := { id := "f1", execute := .ok (resFailOf "f1") }

/-- An agent whose `execute` returns a `partial`-status result without
throwing. -/
def agSoftPart : MAgent := { id := "f2", execute := .ok (resPartOf "f2") }

/-- A handler that always throws. -/
def boomHandler : MessageHandler := fun _ => .error "boom"

/-- A bus registry with one subscriber whose handler throws on every
message. -/
def busBoom : Handlers := [("watcher", [boomHandler])]

/-- A concrete system configuration with auto-merge enabled (the
loader's documented defaults). -/
def cfgMain : SystemCfg :=
  { owner := "georgi", repo := "monkeytown", defaultBranch := "main",
    messagingPath := ".agents/messages",
    decisionsPath := ".agents/decisions",
    autoMerge := { enabled := true, requiredChecks := [],
                   mergeDelay := 60000,
                   blockingLabels := ["do-not-merge", "wip", "blocked"] } }


/-- Run options that skip PR processing (explicit defaults). -/
def optsSkip : RunOptions :=
  { agents := none, skipPRProcessing := true, dryRun := false }

/-- The concrete configuration with auto-merge disabled. -/
def cfgNoAuto : SystemCfg :=
  { cfgMain with autoMerge := { cfgMain.autoMerge with enabled := false } }

/-- Run options for a dry run with PR processing enabled. -/
def optsDry : RunOptions :=
  { agents := none, skipPRProcessing := false, dryRun := true }

theorem someThrow_eq_true_iff (f : α → Option Bool) (l : List α)
    (hs : ∀ x ∈ l, (f x).isSome) :
    someThrow f l = some true ↔ ∃ x ∈ l, f x = some true := by
  induction l with
  | nil => simp [someThrow]
  | cons y ys ih =>
    have hy : (f y).isSome := hs y (by simp)
    have hys : ∀ x ∈ ys, (f x).isSome := fun x hx => hs x (by simp [hx])
    rcases ho : f y with _ | b
    · rw [ho] at hy; simp at hy
    · cases b with
      | true => simp [someThrow, ho]
      | false =>
        simp only [someThrow, ho, ih hys]
        constructor
        · rintro ⟨x, hx, hfx⟩
          exact ⟨x, by simp [hx], hfx⟩
        · rintro ⟨x, hx, hfx⟩
          rcases (List.mem_cons).1 hx with rfl | hx2
          · rw [ho] at hfx; exact absurd hfx (by simp)
          · exact ⟨x, hx2, hfx⟩


/-- C5: the glob matcher, with anchored whole-string matching, satisfies
the documented examples: `src/*.ts` matches `src/index.ts` but not
`src/deep/index.ts`; `src/**` matches both; `file?.md` matches
`file1.md` and `fileA.md` but not `file12.md`. -/
theorem c5_glob_examples :
    matchPath "src/index.ts" "src/*.ts" = some true ∧
    matchPath "src/deep/index.ts" "src/*.ts" = some false ∧
    matchPath "src/index.ts" "src/**" = some true ∧
    matchPath "src/deep/index.ts" "src/**" = some true ∧
    matchPath "file1.md" "file?.md" = some true ∧
    matchPath "fileA.md" "file?.md" = some true ∧
    matchPath "file12.md" "file?.md" = some false := by
  decide

/-- C8: the glob matcher does not escape regex metacharacters other
than `*` and `?`: for the pattern `file.md` the path `fileXmd`, which
differs from the pattern at the `.` position, is matched, because the
unescaped `.` acts as the any-character regex metacharacter. -/
theorem c8_unescaped_metachar :
    matchPath "fileXmd" "file.md" = some true ∧ "fileXmd" ≠ "file.md" := by
  decide

/-- C10: because `**` is rewritten via the placeholder substring `§§`
before `*` and `?` are translated, a pattern containing the literal
characters `§§` is matched as if that substring were `**`: the pattern
`a§§c` contains no glob wildcard, translates to the very same regex
text as `a**c`, and matches the path `a/b/c`. -/
theorem c10_placeholder_injection :
    regexTranslate "a§§c" = regexTranslate "a**c" ∧
    matchPath "a/b/c" "a§§c" = some true ∧
    ("a§§c".toList.all fun c => ¬(c = '*' ∨ c = '?')) = true := by
  decide

/-- C4: `canWrite(A, P)` is true iff `P` matches at least one pattern
in `A.domain.writePaths` under the matcher of §4.1; `canRead(A, P)` is
true unconditionally when `A.domain.readPaths` is absent or empty, and
otherwise true iff `P` matches at least one pattern in `readPaths`.
Both are pure functions of the agent's configuration and the path (in
this embedding they are Lean functions of exactly those arguments).
The hypotheses state that every involved pattern compiles to a regex,
i.e. that the underlying JS `new RegExp` call does not throw. -/
theorem c4_domain_predicates (a : AgentConfig) (p : String)
    (hw : ∀ pat ∈ a.domain.writePaths, (matchPath p pat).isSome)
    (hr : ∀ rps, a.domain.readPaths = some rps →
      ∀ pat ∈ rps, (matchPath p pat).isSome) :
    (canWrite a p = some true ↔
      ∃ pat ∈ a.domain.writePaths, matchPath p pat = some true) ∧
    ((a.domain.readPaths = none ∨ a.domain.readPaths = some []) →
      canRead a p = some true) ∧
    (∀ rps, a.domain.readPaths = some rps → rps ≠ [] →
      (canRead a p = some true ↔
        ∃ pat ∈ rps, matchPath p pat = some true)) := by
  refine ⟨someThrow_eq_true_iff _ _ hw, ?_, ?_⟩
  · rintro (he | he) <;> simp [canRead, he]
  · intro rps he hne
    have : rps.length ≠ 0 := fun h0 => hne (List.length_eq_zero.1 h0)
    simp only [canRead, he, if_neg this]
    exact someThrow_eq_true_iff _ _ (hr rps he)

theorem c4_domain_predicates_witness :
    (canWrite witnessConfig "src/deep/a.ts" = some true ↔
      ∃ pat ∈ witnessConfig.domain.writePaths,
        matchPath "src/deep/a.ts" pat = some true) ∧
    ((witnessConfig.domain.readPaths = none ∨
       witnessConfig.domain.readPaths = some []) →
      canRead witnessConfig "src/deep/a.ts" = some true) ∧
    (∀ rps, witnessConfig.domain.readPaths = some rps → rps ≠ [] →
      (canRead witnessConfig "src/deep/a.ts" = some true ↔
        ∃ pat ∈ rps, matchPath "src/deep/a.ts" pat = some true)) :=
  c4_domain_predicates witnessConfig "src/deep/a.ts" (by decide)
    (by intro rps he; cases he; decide)

/-- C1 (counterexample): the claim states that CI `success` yields the
reason "all CI checks passed", but at a gateway whose PR 1 has CI
status `success` the code produces the reason "All CI checks passed"
(capitalised), a different string. -/
theorem c1_counterexample :
    (match processPR gwSuccess someInstant 1 emptyStore with
     | .ok (d, _) => d.reason
     | .error e => e) = "All CI checks passed" ∧
    "All CI checks passed" ≠ "all CI checks passed" := by
  decide

/-- C1 (amended): for every PR number that resolves via the gateway,
`processPR` returns a decision determined solely by the PR's CI status:
CI `success` yields action `merge` with reason "All CI checks passed";
CI `failure` or `error` yields action `review` with a reason containing
that literal CI status; any other CI status (`pending` or `cancelled`)
yields action `wait` with reason "CI checks still pending" and
`waitConditions = ["CI checks must complete"]`; and the returned
decision is recorded in the per-PR-number decision store.  If the PR
number does not resolve, the call fails with a "not found" error. -/
theorem c1_processPR_decision (gw : Gateway) (now : DateTime) (n : Nat)
    (store : DecisionStore) :
    (gw.getPR n = none →
      processPR gw now n store = .error s!"PR #{n} not found") ∧
    (∀ pr, gw.getPR n = some pr →
      ∃ d store2, processPR gw now n store = .ok (d, store2) ∧
        d.prNumber = n ∧ d.timestamp = now ∧
        getDecision store2 n = some d ∧
        (∀ m, m ≠ n → getDecision store2 m = getDecision store m) ∧
        (gw.getCIStatus n = .success →
          d.action = .merge ∧ d.reason = "All CI checks passed" ∧
          d.waitConditions = none) ∧
        (gw.getCIStatus n = .failure →
          d.action = .review ∧ d.reason = "CI status: failure" ∧
          d.waitConditions = none) ∧
        (gw.getCIStatus n = .error →
          d.action = .review ∧ d.reason = "CI status: error" ∧
          d.waitConditions = none) ∧
        ((gw.getCIStatus n = .pending ∨ gw.getCIStatus n = .cancelled) →
          d.action = .wait ∧ d.reason = "CI checks still pending" ∧
          d.waitConditions = some ["CI checks must complete"])) := by
  constructor
  · intro h
    simp [processPR, h]
  · intro pr hpr
    simp only [processPR, hpr]
    refine ⟨_, _, rfl, ?_⟩
    rcases hci : gw.getCIStatus n with _ | _ | _ | _ | _ <;>
      simp [hci, getDecision, recordDecision, ciStatusStr] <;>
      first
      | (refine ⟨?_, by decide⟩
         intro m hm h2
         exact absurd h2 hm)
      | (intro m hm h2
         exact absurd h2 hm)

theorem c1_processPR_decision_witness :
    ∃ d store2,
      processPR gwSuccess someInstant 1 emptyStore = .ok (d, store2) ∧
      d.prNumber = 1 ∧ d.timestamp = someInstant ∧
      getDecision store2 1 = some d ∧
      d.action = PRAction.merge ∧ d.reason = "All CI checks passed" := by
  obtain ⟨d, s2, h1, h2, h3, h4, h5, h6, h7, h8, h9⟩ :=
    (c1_processPR_decision gwSuccess someInstant 1 emptyStore).2 prOne
      (by decide)
  exact ⟨d, s2, h1, h2, h3, h4, (h6 (by decide)).1, (h6 (by decide)).2.1⟩

theorem dval_dchar (n : Nat) : dval (dchar n) = n % 10 := by
  have h : n % 10 < 10 := Nat.mod_lt _ (by norm_num)
  unfold dchar dval
  set r := n % 10 with hr
  clear_value r
  interval_cases r <;> rfl

theorem isDig_dchar (n : Nat) : isDig (dchar n) := by
  have h : n % 10 < 10 := Nat.mod_lt _ (by norm_num)
  unfold dchar isDig
  set r := n % 10 with hr
  clear_value r
  interval_cases r <;> exact ⟨by decide, by decide⟩

theorem isoParse_isoFormat (dt : DateTime) (h : isoRepresentable dt) :
    isoParse (isoFormat dt) = some dt := by
  obtain ⟨hy, hmo, hd, hh, hmi, hs, hms⟩ := h
  show isoParse (String.mk (isoChars dt)) = some dt
  rw [isoParse]
  simp only [isoChars]
  rw [if_pos]
  · refine congrArg some ?_
    have e := dval_dchar
    cases dt with
    | mk year month day hour minute second milli =>
      simp only [e]
      refine DateTime.mk.injEq .. |>.mpr ?_
      refine ⟨?_, ?_, ?_, ?_, ?_, ?_, ?_⟩ <;> simp only at * <;> omega
  · exact ⟨trivial, trivial, trivial, trivial, trivial, trivial, trivial,
      isDig_dchar _, isDig_dchar _, isDig_dchar _, isDig_dchar _,
      isDig_dchar _, isDig_dchar _, isDig_dchar _, isDig_dchar _,
      isDig_dchar _, isDig_dchar _, isDig_dchar _, isDig_dchar _,
      isDig_dchar _, isDig_dchar _, isDig_dchar _, isDig_dchar _,
      isDig_dchar _⟩

theorem msgTypeOfStr_msgTypeStr (t : MsgType) :
    msgTypeOfStr (msgTypeStr t) = some t := by
  cases t <;> decide

theorem jStrings_map_str (fs : List String) :
    jStrings (fs.map Json.str) = some fs := by
  induction fs with
  | nil => rfl
  | cons f fs ih => simp [jStrings, ih]

/-- C7: for every message constructed by `createMessage`,
`parseMessage (serializeMessage M)` is structurally equal to `M`: same
id, from, to, type, payload and relatedFiles, and a timestamp denoting
the same instant.  The hypothesis says the timestamp's calendar fields
fit the fixed-width ISO form, which holds of every real clock
reading. -/
theorem c7_message_roundtrip (freshId : String) (now : DateTime)
    (fromId toId : String) (type : MsgType)
    (payload : List (String × Json)) (relatedFiles : Option (List String))
    (h : isoRepresentable now) :
    parseMessage (serializeMessage
      (createMessage freshId now fromId toId type payload relatedFiles)) =
      some (createMessage freshId now fromId toId type payload
        relatedFiles) := by
  cases relatedFiles with
  | none =>
    simp [createMessage, serializeMessage, parseMessage, jLookup,
      msgTypeOfStr_msgTypeStr, isoParse_isoFormat _ h, jStrings_map_str]
  | some fs =>
    simp [createMessage, serializeMessage, parseMessage, jLookup,
      msgTypeOfStr_msgTypeStr, isoParse_isoFormat _ h, jStrings_map_str]

theorem c7_message_roundtrip_witness :
    parseMessage (serializeMessage
      (createMessage "m-1" someInstant "planner" "builder" .request
        [("task", .str "build"), ("retries", .num 2)]
        (some ["src/a.ts"]))) =
      some (createMessage "m-1" someInstant "planner" "builder" .request
        [("task", .str "build"), ("retries", .num 2)]
        (some ["src/a.ts"])) :=
  c7_message_roundtrip "m-1" someInstant "planner" "builder" .request
    [("task", .str "build"), ("retries", .num 2)] (some ["src/a.ts"])
    (by decide)

theorem foldl_collectHandlers (sender : String) (l : Handlers)
    (acc : List MessageHandler) :
    l.foldl (fun acc e => if e.1 ≠ sender then acc ++ e.2 else acc) acc =
      acc ++ l.flatMap fun e => if e.1 = sender then [] else e.2 := by
  induction l generalizing acc with
  | nil => simp
  | cons x xs ih =>
    rcases x with ⟨id, hs⟩
    simp only [List.foldl_cons, List.flatMap_cons]
    by_cases hid : id = sender
    · rw [if_neg (fun hcon => hcon hid), if_pos hid, ih]
      simp
    · rw [if_pos hid, if_neg hid, ih, List.append_assoc]

/-- C6: for every published message, if the target is the broadcast
target then the resolved handlers are exactly those of every registered
agent id other than the sender, in registry order with each agent's
handlers in registration order (so the sender never receives its own
broadcast, even if subscribed); for any other target only the handlers
registered for that id are resolved; and a target id with no
registered handlers resolves to zero handlers and delivery succeeds
without error. -/
theorem c6_deliver_semantics (handlers : Handlers) (msg : AgentMessage) :
    (msg.toId = "broadcast" →
      deliverTargets handlers msg =
        handlers.flatMap fun e => if e.1 = msg.fromId then [] else e.2) ∧
    (msg.toId ≠ "broadcast" →
      ∀ hs, lookupHandlers handlers msg.toId = some hs →
        deliverTargets handlers msg = hs) ∧
    (msg.toId ≠ "broadcast" →
      lookupHandlers handlers msg.toId = none →
        deliverTargets handlers msg = [] ∧
        deliverMessage handlers msg = .ok ()) := by
  refine ⟨?_, ?_, ?_⟩
  · intro h
    simp only [deliverTargets, if_pos h]
    simpa using foldl_collectHandlers msg.fromId handlers []
  · intro h hs hl
    simp [deliverTargets, if_neg h, hl]
  · intro h hl
    constructor
    · simp [deliverTargets, if_neg h, hl]
    · simp [deliverMessage, deliverTargets, if_neg h, hl, runHandlers]

theorem c6_deliver_semantics_witness :
    deliverTargets busThree msgFromA = [hB1, hB2, hC] ∧
    deliverTargets busThree msgToB = [hB1, hB2] ∧
    deliverTargets busThree msgToZ = [] ∧
    deliverMessage busThree msgToZ = .ok () := by
  have h1 := (c6_deliver_semantics busThree msgFromA).1 rfl
  have h2 := (c6_deliver_semantics busThree msgToB).2.1 (by decide)
    [hB1, hB2] rfl
  have h3 := (c6_deliver_semantics busThree msgToZ).2.2 (by decide) rfl
  exact ⟨h1.trans rfl, h2, h3.1, h3.2⟩

theorem runAgents_cons (handlers : Handlers) (now : DateTime) (a : MAgent)
    (rest : List MAgent) :
    runAgents handlers now (a :: rest) =
      ((agentStep handlers now a).1 ++ (runAgents handlers now rest).1,
       (agentStep handlers now a).2.1 ++ (runAgents handlers now rest).2.1,
       (agentStep handlers now a).2.2 ++ (runAgents handlers now rest).2.2) :=
  rfl

theorem runAgents_append (handlers : Handlers) (now : DateTime)
    (l1 l2 : List MAgent) :
    runAgents handlers now (l1 ++ l2) =
      ((runAgents handlers now l1).1 ++ (runAgents handlers now l2).1,
       (runAgents handlers now l1).2.1 ++ (runAgents handlers now l2).2.1,
       (runAgents handlers now l1).2.2 ++ (runAgents handlers now l2).2.2) := by
  induction l1 with
  | nil => simp [runAgents]
  | cons a rest ih =>
    rw [List.cons_append, runAgents_cons, runAgents_cons, ih]
    simp [List.append_assoc]

theorem runAgents_mem_results (handlers : Handlers) (now : DateTime)
    {l : List MAgent} {a : MAgent} (ha : a ∈ l) {r : AgentRunResult}
    (hr : a.execute = .ok r) : r ∈ (runAgents handlers now l).1 := by
  induction l with
  | nil => cases ha
  | cons b rest ih =>
    rw [runAgents_cons]
    rcases List.mem_cons.1 ha with rfl | hmem
    · apply List.mem_append_left
      simp only [agentStep, hr]
      rcases publish handlers (taskCompletedMessage now a.id r) with e | u <;>
        simp
    · exact List.mem_append_right _ (ih hmem)

/-- C2 (counterexample): with two agents whose `execute` succeeds and a
subscribed handler that throws on every broadcast, the handler failure
raised inside the coordinator's `task_completed` broadcast does not
abort the run: both agents execute and contribute results, the overall
status is `partial` (not `failure`), and the final state is `idle`
(not `error`) — each broadcast failure is caught by the per-agent
`catch` and recorded as an `"Agent <id>: <message>"` error string. -/
theorem c2_counterexample :
    (runCoordinator [agFirst, agSecond] busBoom gwSuccess cfgMain
        { skipPRProcessing := true } emptyStore
        someInstant).result.agentResults = [resOf "a1", resOf "a2"] ∧
    (runCoordinator [agFirst, agSecond] busBoom gwSuccess cfgMain
        { skipPRProcessing := true } emptyStore
        someInstant).result.status = RunStatus.partialRes ∧
    (runCoordinator [agFirst, agSecond] busBoom gwSuccess cfgMain
        { skipPRProcessing := true } emptyStore
        someInstant).result.status ≠ RunStatus.failure ∧
    (runCoordinator [agFirst, agSecond] busBoom gwSuccess cfgMain
        { skipPRProcessing := true } emptyStore
        someInstant).state = CoordinatorState.idle ∧
    (runCoordinator [agFirst, agSecond] busBoom gwSuccess cfgMain
        { skipPRProcessing := true } emptyStore
        someInstant).state ≠ CoordinatorState.error ∧
    (runCoordinator [agFirst, agSecond] busBoom gwSuccess cfgMain
        { skipPRProcessing := true } emptyStore
        someInstant).result.errors =
      ["Agent a1: boom", "Agent a2: boom"] := by
  decide

/-- C2 (amended): a handler failure raised during the coordinator's own
`task_completed` broadcast is caught by the per-agent `catch`, not
treated as a coordinator-level failure: the failing agent's result
(appended before the broadcast) is kept, the error string
`"Agent <id>: <message>"` is recorded, every remaining agent still
executes, and — with PR processing skipped — the run ends with overall
status `partial` and state `idle`, not `failure`/`error`. -/
theorem c2_handler_failure_contained (pre post : List MAgent) (a : MAgent)
    (handlers : Handlers) (gw : Gateway) (cfg : SystemCfg)
    (store : DecisionStore) (now : DateTime) (r : AgentRunResult)
    (e : String) (dry : Bool)
    (hex : a.execute = .ok r)
    (hpub : publish handlers (taskCompletedMessage now a.id r) = .error e) :
    ∀ out, out = runCoordinator (pre ++ a :: post) handlers gw cfg
        { agents := none, skipPRProcessing := true, dryRun := dry }
        store now →
      r ∈ out.result.agentResults ∧
      s!"Agent {a.id}: {e}" ∈ out.result.errors ∧
      (∀ b ∈ post, ∀ rb, b.execute = .ok rb →
        rb ∈ out.result.agentResults) ∧
      out.result.status = RunStatus.partialRes ∧
      out.state = CoordinatorState.idle := by
  intro out hout
  have hstep : agentStep handlers now a =
      ([r], [s!"Agent {a.id}: {e}"], [taskCompletedMessage now a.id r]) := by
    simp [agentStep, hex, hpub]
  have hres : r ∈ (runAgents handlers now (pre ++ a :: post)).1 :=
    runAgents_mem_results handlers now (by simp) hex
  have herr : s!"Agent {a.id}: {e}" ∈
      (runAgents handlers now (pre ++ a :: post)).2.1 := by
    rw [runAgents_append]
    apply List.mem_append_right
    rw [runAgents_cons, hstep]
    simp
  have hpost : ∀ b ∈ post, ∀ rb, b.execute = .ok rb →
      rb ∈ (runAgents handlers now (pre ++ a :: post)).1 :=
    fun b hb rb hrb =>
      runAgents_mem_results handlers now (by simp [hb]) hrb
  have hne1 : (runAgents handlers now (pre ++ a :: post)).2.1 ≠ [] :=
    List.ne_nil_of_mem herr
  have hne2 : (runAgents handlers now (pre ++ a :: post)).1 ≠ [] :=
    List.ne_nil_of_mem hres
  subst hout
  simp only [runCoordinator, resolveAgents, if_true]
  refine ⟨hres, herr, hpost, ?_, trivial⟩
  simp only [if_pos hne1, if_pos hne2]

theorem c2_handler_failure_contained_witness :
    resOf "a1" ∈ (runCoordinator ([] ++ agFirst :: [agSecond]) busBoom
      gwSuccess cfgMain optsSkip emptyStore
      someInstant).result.agentResults ∧
    "Agent a1: boom" ∈ (runCoordinator ([] ++ agFirst :: [agSecond])
      busBoom gwSuccess cfgMain optsSkip emptyStore
      someInstant).result.errors ∧
    (∀ b ∈ [agSecond], ∀ rb, b.execute = .ok rb →
      rb ∈ (runCoordinator ([] ++ agFirst :: [agSecond]) busBoom
        gwSuccess cfgMain optsSkip emptyStore
        someInstant).result.agentResults) ∧
    (runCoordinator ([] ++ agFirst :: [agSecond]) busBoom gwSuccess
      cfgMain optsSkip emptyStore someInstant).result.status =
      RunStatus.partialRes ∧
    (runCoordinator ([] ++ agFirst :: [agSecond]) busBoom gwSuccess
      cfgMain optsSkip emptyStore someInstant).state =
      CoordinatorState.idle :=
  c2_handler_failure_contained [] [agSecond] agFirst busBoom gwSuccess
    cfgMain emptyStore someInstant (resOf "a1") "boom" false rfl
    rfl _ rfl

theorem runHandlers_ok (msg : AgentMessage) (ts : List MessageHandler)
    (h : ∀ f ∈ ts, f msg = .ok ()) : runHandlers msg ts = .ok () := by
  induction ts with
  | nil => rfl
  | cons f rest ih =>
    have hf := h f (by simp)
    simp only [runHandlers, hf]
    exact ih fun g hg => h g (by simp [hg])

theorem mem_deliverTargets {handlers : Handlers} {msg : AgentMessage}
    {f : MessageHandler} (hf : f ∈ deliverTargets handlers msg) :
    ∃ e ∈ handlers, f ∈ e.2 := by
  by_cases hto : msg.toId = "broadcast"
  · simp only [deliverTargets, if_pos hto] at hf
    rw [foldl_collectHandlers] at hf
    simp only [List.nil_append, List.mem_flatMap] at hf
    obtain ⟨e, he, hfe⟩ := hf
    by_cases hes : e.1 = msg.fromId
    · rw [if_pos hes] at hfe
      simp at hfe
    · rw [if_neg hes] at hfe
      exact ⟨e, he, hfe⟩
  · simp only [deliverTargets, if_neg hto] at hf
    rcases hl : lookupHandlers handlers msg.toId with _ | hs
    · rw [hl] at hf
      simp at hf
    · rw [hl] at hf
      simp only [lookupHandlers, Option.map_eq_some'] at hl
      obtain ⟨e, hfind, he2⟩ := hl
      exact ⟨e, List.mem_of_find?_eq_some hfind, he2 ▸ hf⟩

theorem publish_ok {handlers : Handlers}
    (hh : ∀ e ∈ handlers, ∀ f ∈ e.2, ∀ m, f m = .ok ())
    (msg : AgentMessage) : publish handlers msg = .ok () := by
  unfold publish deliverMessage
  apply runHandlers_ok
  intro f hf
  obtain ⟨e, he, hfe⟩ := mem_deliverTargets hf
  exact hh e he f hfe msg

theorem runAgents_all_ok (handlers : Handlers) (now : DateTime)
    (hpub : ∀ msg, publish handlers msg = .ok ()) :
    ∀ l : List MAgent, (∀ a ∈ l, ∃ r, a.execute = .ok r) →
      (runAgents handlers now l).2.1 = [] ∧
      (runAgents handlers now l).1.length = l.length ∧
      (∀ a ∈ l, ∀ r, a.execute = .ok r →
        r ∈ (runAgents handlers now l).1 ∧
        taskCompletedMessage now a.id r ∈ (runAgents handlers now l).2.2) := by
  intro l
  induction l with
  | nil =>
    intro
    simp [runAgents]
  | cons b rest ih =>
    intro hok
    obtain ⟨r, hr⟩ := hok b (by simp)
    have hstep : agentStep handlers now b =
        ([r], [], [taskCompletedMessage now b.id r]) := by
      simp [agentStep, hr, hpub]
    have ihr := ih fun a ha => hok a (by simp [ha])
    refine ⟨?_, ?_, ?_⟩
    · rw [runAgents_cons, hstep]
      simpa using ihr.1
    · rw [runAgents_cons, hstep]
      simpa using ihr.2.1
    · intro a ha rr hrr
      rw [runAgents_cons, hstep]
      rcases List.mem_cons.1 ha with rfl | hmem
      · rw [hr] at hrr
        injection hrr with hrr
        subst hrr
        simp
      · have hm := ihr.2.2 a hmem rr hrr
        exact ⟨List.mem_append_right _ hm.1, List.mem_append_right _ hm.2⟩

/-- C9: when an agent's `execute` returns normally with a result whose
status is `failure` or `partial` (no exception thrown), the coordinator
appends that result to `agentResults`, broadcasts the `task_completed`
signal for that agent, and records no error string; in particular a run
in which every agent returns such a result without throwing, with PR
processing skipped, has overall status `success` and an empty errors
list.  (The handler hypothesis says no subscribed handler throws.) -/
theorem c9_soft_failure_is_success (registry : List MAgent)
    (handlers : Handlers) (gw : Gateway) (cfg : SystemCfg)
    (store : DecisionStore) (now : DateTime)
    (hok : ∀ a ∈ registry, ∃ r, a.execute = .ok r ∧
      (r.status = RunStatus.failure ∨ r.status = RunStatus.partialRes))
    (hh : ∀ e ∈ handlers, ∀ f ∈ e.2, ∀ m, f m = .ok ()) :
    ∀ out, out = runCoordinator registry handlers gw cfg optsSkip
        store now →
      out.result.status = RunStatus.success ∧
      out.result.errors = [] ∧
      out.result.agentResults.length = registry.length ∧
      (∀ a ∈ registry, ∀ r, a.execute = .ok r →
        r ∈ out.result.agentResults ∧
        taskCompletedMessage now a.id r ∈ out.broadcasts) := by
  intro out hout
  have hpub : ∀ msg, publish handlers msg = .ok () := publish_ok hh
  have h1 := runAgents_all_ok handlers now hpub registry
    fun a ha => (hok a ha).imp fun r hr => hr.1
  subst hout
  simp only [runCoordinator, resolveAgents, optsSkip, if_true]
  refine ⟨?_, h1.1, h1.2.1, ?_⟩
  · simp [h1.1]
  · intro a ha r hr
    exact h1.2.2 a ha r hr

theorem c9_soft_failure_is_success_witness :
    (runCoordinator [agSoftFail, agSoftPart] [] gwSuccess cfgMain
      optsSkip emptyStore someInstant).result.status =
      RunStatus.success ∧
    (runCoordinator [agSoftFail, agSoftPart] [] gwSuccess cfgMain
      optsSkip emptyStore someInstant).result.errors = [] ∧
    (runCoordinator [agSoftFail, agSoftPart] [] gwSuccess cfgMain
      optsSkip emptyStore someInstant).result.agentResults.length =
      [agSoftFail, agSoftPart].length ∧
    (∀ a ∈ [agSoftFail, agSoftPart], ∀ r, a.execute = .ok r →
      r ∈ (runCoordinator [agSoftFail, agSoftPart] [] gwSuccess cfgMain
        optsSkip emptyStore someInstant).result.agentResults ∧
      taskCompletedMessage someInstant a.id r ∈
        (runCoordinator [agSoftFail, agSoftPart] [] gwSuccess cfgMain
          optsSkip emptyStore someInstant).broadcasts) :=
  c9_soft_failure_is_success [agSoftFail, agSoftPart] [] gwSuccess
    cfgMain emptyStore someInstant
    (by
      intro a ha
      fin_cases ha
      · exact ⟨resFailOf "f1", rfl, Or.inl rfl⟩
      · exact ⟨resPartOf "f2", rfl, Or.inr rfl⟩)
    (by
      intro e he
      simp at he)
    _ rfl

/-- C3 (counterexample): with global auto-merge enabled and one open PR
that is auto-merge ready, a dry run computes 1 PR decision while the
same non-dry run computes 2 — dry-run mode skips the `autoMergeReady`
step entirely (its guard is `!dryRun && autoMerge.enabled`), so it does
not perform decision computation "exactly as in a non-dry-run run". -/
theorem c3_counterexample :
    (runCoordinator [] [] gwSuccess cfgMain { dryRun := true }
      emptyStore someInstant).result.prDecisions.length = 1 ∧
    (runCoordinator [] [] gwSuccess cfgMain { dryRun := true }
      emptyStore someInstant).calls = [] ∧
    (runCoordinator [] [] gwSuccess cfgMain { dryRun := false }
      emptyStore someInstant).result.prDecisions.length = 2 := by
  decide

theorem prLoop_dry_eq_wet (gw : Gateway) (now : DateTime) :
    ∀ (l : List PRInfo) (store : DecisionStore),
      (prLoop gw now true l store).decisions =
        (prLoop gw now false l store).decisions ∧
      (prLoop gw now true l store).store =
        (prLoop gw now false l store).store ∧
      (prLoop gw now true l store).thrown =
        (prLoop gw now false l store).thrown ∧
      (prLoop gw now true l store).calls = [] := by
  intro l
  induction l with
  | nil =>
    intro store
    simp [prLoop]
  | cons pr rest ih =>
    intro store
    rcases hp : processPR gw now pr.number store with e | pair
    · simp [prLoop, hp]
    · rcases pair with ⟨d, store2⟩
      have ihs := ih store2
      refine ⟨?_, ?_, ?_, ?_⟩ <;>
        simp [prLoop, hp, ihs.1, ihs.2.1, ihs.2.2.1, ihs.2.2.2]

theorem processPRs_dry (gw : Gateway) (cfg : SystemCfg) (now : DateTime)
    (store : DecisionStore) :
    processPRs gw cfg now true store =
      prLoop gw now true gw.listOpenPRs store := by
  unfold processPRs
  rcases hth : (prLoop gw now true gw.listOpenPRs store).thrown with _ | e <;>
    simp [hth]
  · rw [← hth]
  · rw [← hth]

theorem processPRs_noauto (gw : Gateway) (cfg : SystemCfg)
    (now : DateTime) (store : DecisionStore)
    (hna : cfg.autoMerge.enabled = false) :
    processPRs gw cfg now false store =
      prLoop gw now false gw.listOpenPRs store := by
  unfold processPRs
  rcases hth : (prLoop gw now false gw.listOpenPRs store).thrown with _ | e <;>
    simp [hth, hna]
  · rw [← hth]
  · rw [← hth]

/-- C3 (amended): with `dryRun = true` and `skipPRProcessing` unset,
dry-run leaves the per-open-PR decide-and-record loop exactly as in a
non-dry-run run (same decisions, same recordings, same thrown error),
suppresses the external merge execution (no gateway calls at all), and
additionally skips the `autoMergeReady` step entirely — even when
global auto-merge is enabled, its decisions are neither computed nor
included in the run result.  The comparison run is the non-dry-run with
auto-merge disabled, i.e. the pure decide/record behavior. -/
theorem c3_dryrun_scope (gw : Gateway) (cfg : SystemCfg) (now : DateTime)
    (store : DecisionStore) (registry : List MAgent)
    (handlers : Handlers) (ags : Option (List String)) :
    ∀ dryPh wetPh,
      dryPh = processPRs gw cfg now true store →
      wetPh = processPRs gw
        { cfg with autoMerge := { cfg.autoMerge with enabled := false } }
        now false store →
      dryPh.calls = [] ∧
      dryPh.decisions = wetPh.decisions ∧
      (∀ n, dryPh.store n = wetPh.store n) ∧
      dryPh.thrown = wetPh.thrown ∧
      (dryPh.thrown = none →
        ∀ out, out = runCoordinator registry handlers gw cfg
            { agents := ags, skipPRProcessing := false, dryRun := true }
            store now →
          out.result.prDecisions = dryPh.decisions ∧ out.calls = []) := by
  intro dryPh wetPh hd hw
  subst hd
  subst hw
  rw [processPRs_dry, processPRs_noauto _ _ _ _ rfl]
  have hpl := prLoop_dry_eq_wet gw now gw.listOpenPRs store
  refine ⟨hpl.2.2.2, hpl.1, fun n => by rw [hpl.2.1], hpl.2.2.1, ?_⟩
  intro hnone out hout
  subst hout
  simp only [runCoordinator, processPRs_dry]
  rw [hnone]
  exact ⟨rfl, hpl.2.2.2⟩

theorem c3_dryrun_scope_witness :
    (processPRs gwSuccess cfgMain someInstant true emptyStore).calls = [] ∧
    (processPRs gwSuccess cfgMain someInstant true emptyStore).decisions =
      (processPRs gwSuccess cfgNoAuto someInstant false
        emptyStore).decisions ∧
    (∀ n, (processPRs gwSuccess cfgMain someInstant true emptyStore).store
        n =
      (processPRs gwSuccess cfgNoAuto someInstant false
        emptyStore).store n) ∧
    (processPRs gwSuccess cfgMain someInstant true emptyStore).thrown =
      (processPRs gwSuccess cfgNoAuto someInstant false
        emptyStore).thrown ∧
    ((processPRs gwSuccess cfgMain someInstant true emptyStore).thrown =
        none →
      ∀ out, out = runCoordinator [] [] gwSuccess cfgMain optsDry
          emptyStore someInstant →
        out.result.prDecisions =
          (processPRs gwSuccess cfgMain someInstant true
            emptyStore).decisions ∧
        out.calls = []) :=
  c3_dryrun_scope gwSuccess cfgMain someInstant emptyStore [] [] none
    _ _ rfl rfl
